import Mathlib

/-!
Verification development for the Hermes feed pipeline.

The definitions below are shallow embeddings of the Python source under
`src/hermes/`.  Python strings are modelled as Lean `String` or `List Char`,
machine floats that only ever hold exact decimal values are modelled as `ℚ`,
fallible external calls (Redis, OpenAI, Slack) are modelled as explicit
`Except`/oracle parameters, and the retry loop of the enrichment client is
modelled with explicit fuel equal to the source's `max_retries` bound.
-/

namespace Hermes

/-! ## Basic string utilities shared by the models -/

/-- Number of a list of decimal digit characters, most significant first
(the value Python's `int`/`float` would assign to the digit run). -/
def natOfDigits (l : List Char) : Nat :=
  l.foldl (fun a c => 10 * a + (c.toNat - 48)) 0

/-- Substring test on character lists: does `pat` occur contiguously in the
second argument?  Models Python's `pat in s`. -/
def containsSeq (pat : List Char) : List Char → Bool
  | [] => pat.isEmpty
  | c :: rest => pat.isPrefixOf (c :: rest) || containsSeq pat rest

/-- Models Python's `pat in s` on strings. -/
def strContains (s pat : String) : Bool :=
  containsSeq pat.toList s.toList

/-! ## Enrichment client (`src/hermes/ai_wrapper.py`, class `OpenAIWrapper`) -/

/-- `self.max_retries = 3` (ai_wrapper.py line 20). -/
def maxRetries : Nat := 3

/-- `self.max_content_length = 4000` (ai_wrapper.py line 21). -/
def maxContentLength : Nat := 4000

/-- The truncation marker `"\n[Content truncated due to length]"` appended by
`_truncate_content` (ai_wrapper.py line 36). -/
def truncationMarker : List Char := "\n[Content truncated due to length]".toList

/-- Python `s.rfind(c)` restricted to single-character needles, returned as
`Option Nat` (Python returns `-1` when absent, and the caller's `> 0` test
treats that the same as `none` here). -/
def rfind (l : List Char) (c : Char) : Option Nat :=
  match l with
  | [] => none
  | x :: xs =>
    match rfind xs c with
    | some i => some (i + 1)
    | none => if x = c then some 0 else none

/-- `OpenAIWrapper._truncate_content` (ai_wrapper.py lines 25-37):
if the content exceeds `max_content_length`, cut to that length, then cut
again at the last `'.'` provided its index is positive (`last_period > 0`),
and append the truncation marker; otherwise return the content unchanged. -/
def truncateContent (content : List Char) : List Char :=
  if content.length > maxContentLength then
    let truncated := content.take maxContentLength
    let truncated2 :=
      match rfind truncated '.' with
      | some i => if i > 0 then truncated.take (i + 1) else truncated
      | none => truncated
    truncated2 ++ truncationMarker
  else content

/-- The regex tail `(\d+\.?\d*)s` of `_handle_rate_limit` matched at the
start of `l`: a nonempty digit run, an optional dot with a further digit run,
then the literal `s`.  Returns the matched number as an exact rational. -/
def matchSecondsNum (l : List Char) : Option ℚ :=
  let p1 := l.span Char.isDigit
  if p1.1 = [] then none
  else
    match p1.2 with
    | 's' :: _ => some (natOfDigits p1.1 : ℚ)
    | '.' :: rest =>
      let p2 := rest.span Char.isDigit
      match p2.2 with
      | 's' :: _ =>
        some ((natOfDigits p1.1 : ℚ) + (natOfDigits p2.1 : ℚ) / (10 : ℚ) ^ p2.1.length)
      | _ => none
    | _ => none

/-- The literal part of the regex in `_handle_rate_limit`
(`re.search(r"try again in (\d+\.?\d*)s", error_message)`). -/
def tryAgainLit : List Char := "try again in ".toList

/-- Leftmost-match search for the full pattern, as `re.search` performs it:
at each position, if the literal matches there and is followed by a number
and `s`, return that number; otherwise continue at the next position. -/
def searchWaitTime : List Char → Option ℚ
  | [] => none
  | c :: rest =>
    if tryAgainLit.isPrefixOf (c :: rest) then
      match matchSecondsNum ((c :: rest).drop tryAgainLit.length) with
      | some q => some q
      | none => searchWaitTime rest
    else searchWaitTime rest

/-- `re.search(r"try again in (\d+\.?\d*)s", msg)` giving the captured
number, applied to a whole error message. -/
def parseWaitTime (msg : String) : Option ℚ :=
  searchWaitTime msg.toList

/-- `OpenAIWrapper._handle_rate_limit` (ai_wrapper.py lines 39-51): parse a
suggested wait from the error text; on a match return it plus a one-second
buffer (`return wait_time + 1`), otherwise return the default of 30. -/
def handleRateLimit (msg : String) : ℚ :=
  match parseWaitTime msg with
  | some waitTime => waitTime + 1
  | none => 30

/-- The marker the exception handler looks for
(`"rate_limit_exceeded" in error_message`, ai_wrapper.py line 138). -/
def rateLimitMarker : String := "rate_limit_exceeded"

/-- `json.dumps` of the degraded result returned after retry exhaustion
(ai_wrapper.py lines 159-167). -/
def degradedRateLimitJson : String :=
  "\x7b\"summary\": \"Failed to analyze entry due to rate limit\", \"deadline\": \"No deadline\", \"impact\": \"Analysis failed\", \"actions\": [\"Please review this entry manually\"], \"is_important\": false\x7d"

/-- `json.dumps` of the degraded result returned on a non-retryable error
(ai_wrapper.py lines 147-155). -/
def degradedErrorJson : String :=
  "\x7b\"summary\": \"Failed to analyze entry due to an error\", \"deadline\": \"No deadline\", \"impact\": \"Analysis failed\", \"actions\": [\"Please review this entry manually\"], \"is_important\": false\x7d"

/-- Outcome of one external `chat.completions.create` round-trip, as seen by
the `try` block of `analyze_entry`: either a response body (whose JSON
validity determines whether line 132 raises), or a raised exception with a
message. -/
inductive CallResult where
  | resp (analysis : String) (validJson : Bool)
  | raised (msg : String)

/-- The message of the `ValueError` raised at ai_wrapper.py line 132 when the
response is not valid JSON. -/
def invalidJsonMsg : String := "Invalid JSON response from OpenAI"

/-- Whether one call outcome takes the retry branch of the `except` clause:
a raised exception whose text contains the rate-limit marker.  A response —
valid JSON or not — never does: the invalid-JSON `ValueError` message
contains no marker, so it ends in the non-retryable branch. -/
def isThrottled : CallResult → Bool
  | .resp _ _ => false
  | .raised m => strContains m rateLimitMarker

/-- The observable outcome of one `analyze_entry` invocation: the returned
string, the final value of `self.rate_limit_delay`, the number of external
analysis calls issued, and the `asyncio.sleep` durations in order. -/
structure AnalyzeResult where
  retval : String
  finalDelay : ℚ
  numCalls : Nat
  sleeps : List ℚ
deriving Repr

/-- The `while retry_count < self.max_retries` loop of
`OpenAIWrapper.analyze_entry` (ai_wrapper.py lines 56-167), with fuel
`max_retries - retry_count`.  Each iteration: sleep `rate_limit_delay` if
positive and reset it to zero, issue the external call (the outcome of the
`idx`-th call is given by the oracle `calls`; the prompt construction is pure
and does not affect control flow), return the analysis on success, and on an
exception retry with a freshly computed delay when the message carries the
rate-limit marker, else return the degraded error result.  Fuel zero is the
loop exit, returning the degraded rate-limit result. -/
def analyzeLoop (calls : Nat → CallResult) :
    Nat → Nat → ℚ → List ℚ → Nat → AnalyzeResult
  | 0, _, delay, sleeps, numCalls =>
    ⟨degradedRateLimitJson, delay, numCalls, sleeps⟩
  | fuel + 1, idx, delay, sleeps, numCalls =>
    let sleeps2 := if 0 < delay then sleeps ++ [delay] else sleeps
    let delay2 : ℚ := if 0 < delay then 0 else delay
    let outcome : Except String String :=
      match calls idx with
      | .resp a true => .ok a
      | .resp _ false => .error invalidJsonMsg
      | .raised msg => .error msg
    match outcome with
    | .ok a => ⟨a, delay2, numCalls + 1, sleeps2⟩
    | .error msg =>
      if strContains msg rateLimitMarker then
        analyzeLoop calls fuel (idx + 1) (handleRateLimit msg) sleeps2 (numCalls + 1)
      else ⟨degradedErrorJson, delay2, numCalls + 1, sleeps2⟩

/-- `OpenAIWrapper.analyze_entry` (ai_wrapper.py lines 53-167), started with
the current value `delay0` of `self.rate_limit_delay` (0 on a fresh client). -/
def analyzeEntry (calls : Nat → CallResult) (delay0 : ℚ) : AnalyzeResult :=
  analyzeLoop calls maxRetries 0 delay0 [] 0

/-! ## SHA-256 (the `hashlib.sha256(...).hexdigest()` used by
`FeedProcessor.get_entry_hash`), over `Nat` words reduced mod `2 ^ 32` -/

/-- Addition modulo `2 ^ 32`. -/
def add32 (a b : Nat) : Nat := (a + b) % 2 ^ 32

/-- Right rotation of a 32-bit word. -/
def rotr32 (n x : Nat) : Nat := ((x >>> n) ||| (x <<< (32 - n))) % 2 ^ 32

/-- Bitwise complement of a 32-bit word. -/
def not32 (x : Nat) : Nat := x ^^^ 0xFFFFFFFF

/-- SHA-256 `Ch` function. -/
def sha2Ch (x y z : Nat) : Nat := (x &&& y) ^^^ (not32 x &&& z)

/-- SHA-256 `Maj` function. -/
def sha2Maj (x y z : Nat) : Nat := (x &&& y) ^^^ (x &&& z) ^^^ (y &&& z)

/-- SHA-256 `Σ₀`. -/
def bigSigma0 (x : Nat) : Nat := rotr32 2 x ^^^ rotr32 13 x ^^^ rotr32 22 x

/-- SHA-256 `Σ₁`. -/
def bigSigma1 (x : Nat) : Nat := rotr32 6 x ^^^ rotr32 11 x ^^^ rotr32 25 x

/-- SHA-256 `σ₀`. -/
def smallSigma0 (x : Nat) : Nat := rotr32 7 x ^^^ rotr32 18 x ^^^ (x >>> 3)

/-- SHA-256 `σ₁`. -/
def smallSigma1 (x : Nat) : Nat := rotr32 17 x ^^^ rotr32 19 x ^^^ (x >>> 10)

/-- The 64 SHA-256 round constants. -/
def sha2K : List Nat :=
  [1116352408, 1899447441, 3049323471, 3921009573, 961987163,
   1508970993, 2453635748, 2870763221, 3624381080, 310598401,
   607225278, 1426881987, 1925078388, 2162078206, 2614888103,
   3248222580, 3835390401, 4022224774, 264347078, 604807628,
   770255983, 1249150122, 1555081692, 1996064986, 2554220882,
   2821834349, 2952996808, 3210313671, 3336571891, 3584528711,
   113926993, 338241895, 666307205, 773529912, 1294757372,
   1396182291, 1695183700, 1986661051, 2177026350, 2456956037,
   2730485921, 2820302411, 3259730800, 3345764771, 3516065817,
   3600352804, 4094571909, 275423344, 430227734, 506948616,
   659060556, 883997877, 958139571, 1322822218, 1537002063,
   1747873779, 1955562222, 2024104815, 2227730452, 2361852424,
   2428436474, 2756734187, 3204031479, 3329325298]

/-- The SHA-256 initial hash state. -/
def sha2H0 : List Nat :=
  [1779033703, 3144134277, 1013904242, 2773480762, 1359893119,
   2600822924, 528734635, 1541459225]

/-- Big-endian byte rendering of `n` on `k` bytes. -/
def bigEndianBytes (k n : Nat) : List Nat :=
  (List.range k).map fun i => (n >>> (8 * (k - 1 - i))) % 256

/-- SHA-256 message padding of a byte list: `0x80`, zeros to 56 mod 64, then
the bit length on 8 big-endian bytes. -/
def sha2Pad (msg : List Nat) : List Nat :=
  msg ++ [0x80] ++ List.replicate ((119 - msg.length % 64) % 64) 0
    ++ bigEndianBytes 8 (8 * msg.length)

/-- Group a byte list into big-endian 32-bit words, four bytes at a time. -/
def bytesToWords : List Nat → List Nat
  | b0 :: b1 :: b2 :: b3 :: rest =>
    (((b0 * 256 + b1) * 256 + b2) * 256 + b3) :: bytesToWords rest
  | _ => []

/-- The SHA-256 message schedule: extend 16 words to 64. -/
def sha2Schedule (ws : List Nat) : List Nat :=
  (List.range 64).foldl
    (fun acc t =>
      if t < 16 then acc ++ [ws.getD t 0]
      else
        acc ++ [add32 (add32 (smallSigma1 (acc.getD (t - 2) 0)) (acc.getD (t - 7) 0))
          (add32 (smallSigma0 (acc.getD (t - 15) 0)) (acc.getD (t - 16) 0))])
    []

/-- One SHA-256 compression of a 64-byte chunk into the running state. -/
def sha2Compress (h : List Nat) (chunk : List Nat) : List Nat :=
  let w := sha2Schedule (bytesToWords chunk)
  let final := (List.range 64).foldl
    (fun (st : List Nat) t =>
      match st with
      | [a, b, c, d, e, f, g, hh] =>
        let t1 := add32 hh (add32 (bigSigma1 e)
          (add32 (sha2Ch e f g) (add32 (sha2K.getD t 0) (w.getD t 0))))
        let t2 := add32 (bigSigma0 a) (sha2Maj a b c)
        [add32 t1 t2, a, b, c, add32 d t1, e, f, g]
      | st => st) h
  List.zipWith add32 h final

/-- Split a byte list into 64-byte chunks (fuel-driven; the fuel is the list
length, which strictly dominates the number of chunks). -/
def chunks64Aux : Nat → List Nat → List (List Nat)
  | 0, _ => []
  | _, [] => []
  | fuel + 1, l@(_ :: _) => l.take 64 :: chunks64Aux fuel (l.drop 64)

/-- Split a byte list into 64-byte chunks. -/
def chunks64 (l : List Nat) : List (List Nat) := chunks64Aux l.length l

/-- Lower-case hexadecimal digit. -/
def hexDigit (n : Nat) : Char :=
  if n < 10 then Char.ofNat (48 + n) else Char.ofNat (87 + n)

/-- Eight-character lower-case hex rendering of a 32-bit word. -/
def wordHex (n : Nat) : List Char :=
  (List.range 8).map fun i => hexDigit ((n >>> (4 * (7 - i))) % 16)

/-- `hashlib.sha256(bytes).hexdigest()`: the full digest pipeline on a byte
list, rendered as a 64-character lower-case hex string. -/
def sha256Hex (msg : List Nat) : String :=
  let h := (chunks64 (sha2Pad msg)).foldl sha2Compress sha2H0
  String.mk (h.map wordHex).flatten

/-- UTF-8 bytes of one character (Python `str.encode()` is UTF-8). -/
def utf8Bytes (c : Char) : List Nat :=
  let n := c.toNat
  if n < 0x80 then [n]
  else if n < 0x800 then
    [0xC0 ||| (n >>> 6), 0x80 ||| (n &&& 0x3F)]
  else if n < 0x10000 then
    [0xE0 ||| (n >>> 12), 0x80 ||| ((n >>> 6) &&& 0x3F), 0x80 ||| (n &&& 0x3F)]
  else
    [0xF0 ||| (n >>> 18), 0x80 ||| ((n >>> 12) &&& 0x3F),
     0x80 ||| ((n >>> 6) &&& 0x3F), 0x80 ||| (n &&& 0x3F)]

/-- Python `s.encode()`: UTF-8 bytes of a string. -/
def encodeUtf8 (s : String) : List Nat :=
  (s.toList.map utf8Bytes).flatten

/-- `FeedProcessor.get_entry_hash` (feed_processor.py lines 360-365): the
SHA-256 hex digest of the bare concatenation
`f"{entry.title}{entry.link}{entry.get('published', '')}"`.
(`main.py` lines 61-65 computes the same concatenation and digest.) -/
def getEntryHash (title link published : String) : String :=
  sha256Hex (encodeUtf8 (title ++ link ++ published))

/-! ## Feed processor (`src/hermes/feed_processor.py`, class `FeedProcessor`) -/

/-- Python values occurring in an analysis dict (strings, booleans, lists),
enough to model `str(analysis_data)` and field access. -/
inductive PyVal where
  | str (s : String)
  | bool (b : Bool)
  | list (l : List PyVal)

/-- A Python dict with string keys, as an association list (first binding
wins, as dict keys are unique). -/
abbrev PyDict := List (String × PyVal)

mutual

/-- Python `repr` of a value as it appears inside `str(analysis_data)`:
strings in single quotes, `True`/`False`, lists in square brackets. -/
def pyRepr : PyVal → String
  | .str s => "\x27" ++ s ++ "\x27"
  | .bool b => if b then "True" else "False"
  | .list l => "[" ++ pyReprItems l ++ "]"

/-- Comma-separated `repr`s of list items. -/
def pyReprItems : List PyVal → String
  | [] => ""
  | [x] => pyRepr x
  | x :: xs => pyRepr x ++ ", " ++ pyReprItems xs

end

/-- Comma-separated `key: value` pairs of a dict `repr`. -/
def pyReprPairs : PyDict → String
  | [] => ""
  | [kv] => "\x27" ++ kv.1 ++ "\x27: " ++ pyRepr kv.2
  | kv :: rest => "\x27" ++ kv.1 ++ "\x27: " ++ pyRepr kv.2 ++ ", " ++ pyReprPairs rest

/-- Python `str(analysis_data)` for a dict. -/
def pyReprDict (d : PyDict) : String :=
  "\x7b" ++ pyReprPairs d ++ "\x7d"

/-- ASCII lower-casing of one character, as Python `str.lower()` acts on the
ASCII texts involved here. -/
def asciiLower (c : Char) : Char :=
  if 65 ≤ c.toNat ∧ c.toNat ≤ 90 then Char.ofNat (c.toNat + 32) else c

/-- Python `s.lower()` over the character list of a string. -/
def lowerChars (s : String) : List Char :=
  s.toList.map asciiLower

/-- Python `d.get(k, dflt)`. -/
def dictGet (d : PyDict) (k : String) (dflt : PyVal) : PyVal :=
  match d.find? (fun kv => kv.1 == k) with
  | some kv => kv.2
  | none => dflt

/-- `FeedProcessor.is_entry_processed` (feed_processor.py lines 367-378):
return the store's membership answer, and on any store exception return
`false` (treat the entry as unseen).  The `sismember` round-trip is the
`Except` argument. -/
def isEntryProcessed (memResult : Except String Bool) : Bool :=
  match memResult with
  | .ok b => b
  | .error _ => false

/-- Observable effects of one `FeedProcessor.process_entry` run: whether the
analysis call was issued, whether the entry was saved, and whether it was
appended to `self.important_entries`. -/
structure ProcessEffects where
  analyzed : Bool
  saved : Bool
  appended : Bool
deriving DecidableEq, Repr

/-- `FeedProcessor.process_entry` (feed_processor.py lines 142-202) for an
entry whose analysis parses to the dict `analysisData`: skip if the dedup
check answers true, skip if the keyword filter fails, otherwise analyze,
save, and append to `important_entries` exactly when the text
`"not_important"` does not occur in `str(analysis_data).lower()`
(line 182). -/
def processEntry (memResult : Except String Bool) (kwMatch : Bool)
    (analysisData : PyDict) : ProcessEffects :=
  if isEntryProcessed memResult then ⟨false, false, false⟩
  else if !kwMatch then ⟨false, false, false⟩
  else
    let appended := !containsSeq "not_important".toList (lowerChars (pyReprDict analysisData))
    ⟨true, true, appended⟩

/-- Outcome of one `FeedProcessor.save_entry` run (feed_processor.py lines
380-423): which store operations were issued, the resulting stable store
facts (record body written, identity added to the processed set), and the
propagated exception if any (the `except` clause re-raises). -/
structure SaveOutcome where
  hsetIssued : Bool
  saddIssued : Bool
  recordWritten : Bool
  memberAdded : Bool
  raised : Option String
deriving DecidableEq, Repr

/-- `FeedProcessor.save_entry` persistence steps: `hset` the record first
(line 412), then `sadd` the identity to `processed_entries` (line 415); a
failure of either raises out of the function after logging.  The two store
round-trips are the `Except` arguments. -/
def saveEntry (hsetRes saddRes : Except String Unit) : SaveOutcome :=
  match hsetRes with
  | .error e => ⟨true, false, false, false, some e⟩
  | .ok _ =>
    match saddRes with
    | .error e => ⟨true, true, true, false, some e⟩
    | .ok _ => ⟨true, true, true, true, none⟩

/-! ## Deadline parsing and the report filter -/

/-- `datetime.datetime` as far as the filter compares it: a calendar date
plus an abstract time-of-day remainder (`0` for values produced by
`strptime` with a date-only format; positive for any `datetime.now()` not
falling exactly on midnight). -/
structure PyDateTime where
  year : Nat
  month : Nat
  day : Nat
  tod : Nat
deriving DecidableEq, Repr

/-- Python `datetime` comparison: lexicographic on (year, month, day,
time-of-day). -/
def dtLt (a b : PyDateTime) : Bool :=
  Nat.blt a.year b.year ||
    (a.year == b.year && (Nat.blt a.month b.month ||
      (a.month == b.month && (Nat.blt a.day b.day ||
        (a.day == b.day && Nat.blt a.tod b.tod)))))

/-- Day count of a month, with the Gregorian leap rule, as validated by the
`datetime.datetime` constructor. -/
def daysInMonth (y m : Nat) : Nat :=
  if m == 2 then
    if y % 4 == 0 && (y % 100 != 0 || y % 400 == 0) then 29 else 28
  else if m == 4 || m == 6 || m == 9 || m == 11 then 30 else 31

/-- Split a character list at every `'-'` (Python `s.split("-")`; an empty
input yields one empty field, adjacent dashes yield empty fields). -/
def splitDash (l : List Char) : List (List Char) :=
  match l with
  | [] => [[]]
  | c :: rest =>
    let r := splitDash rest
    if c = '-' then [] :: r
    else
      match r with
      | h :: t => (c :: h) :: t
      | [] => [[c]]

/-- `datetime.datetime.strptime(s, "%Y-%m-%d")`: CPython compiles the format
to the anchored regex `(\d\d\d\d)-(1[0-2]|0[1-9]|[1-9])-(3[01]|[12]\d|0[1-9]|[1-9])`
with no trailing data allowed — equivalently, exactly three dash-separated
all-digit fields of widths 4, 1-2 and 1-2 with month in 1..12 and day in
1..31 — then the `datetime` constructor checks the day against the month
length (and the year against `MINYEAR = 1`).  Returns the parsed
(year, month, day) or `none` where Python raises `ValueError`. -/
def strptimeYmd (s : String) : Option (Nat × Nat × Nat) :=
  match splitDash s.toList with
  | [yc, mc, dc] =>
    if yc.length == 4 && yc.all Char.isDigit &&
        (mc.length == 1 || mc.length == 2) && mc.all Char.isDigit &&
        (dc.length == 1 || dc.length == 2) && dc.all Char.isDigit then
      let y := natOfDigits yc
      let m := natOfDigits mc
      let d := natOfDigits dc
      if 1 ≤ y && 1 ≤ m && m ≤ 12 && 1 ≤ d && d ≤ 31 && d ≤ daysInMonth y m then
        some (y, m, d)
      else none
    else none
  | _ => none

/-- One element of `self.important_entries` as appended at feed_processor.py
lines 183-191: title, link, parsed analysis dict, published, feed name. -/
structure BufEntry where
  title : String
  link : String
  analysis : PyDict
  published : String
  feedName : String

/-- The `"deadline"` field fetched by
`analysis.get("deadline", "No deadline")`, as a string when it is one
(in Python a non-string value would make the subsequent `strptime` raise
`TypeError`; the filter theorems assume string-typed deadlines). -/
def deadlineStr (analysis : PyDict) : Option String :=
  match dictGet analysis "deadline" (.str "No deadline") with
  | .str s => some s
  | _ => none

/-- The per-entry admission test of the `valid_entries` loop in
`FeedProcessor.send_summary_notification` (feed_processor.py lines 212-251):
skip on empty analysis, skip on the `"No deadline"` sentinel, skip when
`strptime` fails, skip when the parsed deadline is strictly before `now`. -/
def entryValid (now : PyDateTime) (e : BufEntry) : Bool :=
  if e.analysis.isEmpty then false
  else
    match deadlineStr e.analysis with
    | none => false
    | some dl =>
      if dl == "No deadline" then false
      else
        match strptimeYmd dl with
        | none => false
        | some (y, m, d) => !dtLt ⟨y, m, d, 0⟩ now

/-- The `valid_entries` list built by `send_summary_notification`. -/
def filterValidEntries (now : PyDateTime) (buf : List BufEntry) : List BufEntry :=
  buf.filter (entryValid now)

/-- A throttling error message of the shape OpenAI emits. -/
def throttleMsg : String :=
  "Error code: 429 - rate_limit_exceeded: Please try again in 20s."

/-- An oracle on which every external analysis call raises a throttling
error. -/
def throttledCalls : Nat → CallResult := fun _ => .raised throttleMsg

/-- An oracle on which every external analysis call returns the valid-JSON
empty-object response. -/
def successCalls : Nat → CallResult := fun _ => .resp "\x7b\x7d" true

/-- An oracle whose first two calls raise throttling errors and whose third
call returns a valid response: a success after throttled attempts. -/
def mixedCalls : Nat → CallResult :=
  fun i => if i < 2 then .raised throttleMsg else .resp "\x7b\x7d" true

/-- A content list longer than the limit whose only sentence terminator in
the first `max_content_length` characters sits at index 0. -/
def longDotContent : List Char := '.' :: List.replicate 4000 'a'

/-- A fixed generation instant (2025-10-12, mid-morning) used by concrete
report-filter runs. -/
def reportNow : PyDateTime := ⟨2025, 10, 12, 30000⟩

/-- A buffered entry with a non-empty analysis and a valid future deadline. -/
def futureEntry : BufEntry :=
  ⟨"Service retirement", "https://example.com/a",
    [("summary", .str "Service X retires"), ("deadline", .str "2030-06-30"),
      ("is_important", .bool true)],
    "2025-10-01", "feedA"⟩

/-! ## Supporting lemmas about the enrichment-client loop -/

lemma matchSecondsNum_nonneg (l : List Char) (q : ℚ)
    (h : matchSecondsNum l = some q) : 0 ≤ q := by
  simp only [matchSecondsNum] at h
  split at h
  · exact absurd h (by simp)
  · split at h
    · simp at h; subst h; positivity
    · split at h
      · simp at h; subst h; positivity
      · exact absurd h (by simp)
    · exact absurd h (by simp)

lemma searchWaitTime_nonneg (l : List Char) (q : ℚ)
    (h : searchWaitTime l = some q) : 0 ≤ q := by
  induction l with
  | nil => simp [searchWaitTime] at h
  | cons c rest ih =>
    unfold searchWaitTime at h
    split at h
    · split at h
      next q' hm =>
        simp only [Option.some.injEq] at h
        subst h
        exact matchSecondsNum_nonneg _ _ hm
      next hm => exact ih h
    · exact ih h

lemma handleRateLimit_pos (msg : String) : 0 < handleRateLimit msg := by
  unfold handleRateLimit parseWaitTime
  split
  next q hq =>
    have := searchWaitTime_nonneg _ _ hq
    linarith
  · norm_num

lemma analyzeLoop_all_throttled (calls : Nat → CallResult)
    (h : ∀ i, ∃ m, calls i = .raised m ∧ strContains m rateLimitMarker = true) :
    ∀ fuel idx delay sleeps numCalls,
      (analyzeLoop calls fuel idx delay sleeps numCalls).retval = degradedRateLimitJson ∧
      (analyzeLoop calls fuel idx delay sleeps numCalls).numCalls = numCalls + fuel := by
  intro fuel
  induction fuel with
  | zero => intro idx delay sleeps n; exact ⟨rfl, rfl⟩
  | succ fuel ih =>
    intro idx delay sleeps n
    obtain ⟨m, em, cm⟩ := h idx
    simp only [analyzeLoop, em, cm, if_true]
    have := ih (idx + 1) (handleRateLimit m)
      (if 0 < delay then sleeps ++ [delay] else sleeps) (n + 1)
    refine ⟨this.1, ?_⟩
    rw [this.2]; omega

lemma analyzeLoop_sleeps_prefix (calls : Nat → CallResult) :
    ∀ fuel idx delay sleeps numCalls,
      ∃ t, (analyzeLoop calls fuel idx delay sleeps numCalls).sleeps = sleeps ++ t := by
  intro fuel
  induction fuel with
  | zero => intro idx delay sleeps n; exact ⟨[], by simp [analyzeLoop]⟩
  | succ fuel ih =>
    intro idx delay sleeps n
    obtain ⟨s2, hs2⟩ :
        ∃ t, (if (0 : ℚ) < delay then sleeps ++ [delay] else sleeps) = sleeps ++ t := by
      by_cases hd : (0 : ℚ) < delay
      · exact ⟨[delay], by simp [hd]⟩
      · exact ⟨[], by simp [hd]⟩
    rcases hc : calls idx with ⟨a, v⟩ | m
    · cases v
      · have hiv : strContains invalidJsonMsg rateLimitMarker = false := by decide
        simp only [analyzeLoop, hc, hiv, Bool.false_eq_true, if_false]
        exact ⟨s2, hs2⟩
      · simp only [analyzeLoop, hc]
        exact ⟨s2, hs2⟩
    · by_cases hm : strContains m rateLimitMarker = true
      · obtain ⟨t, ht⟩ := ih (idx + 1) (handleRateLimit m)
          (if 0 < delay then sleeps ++ [delay] else sleeps) (n + 1)
        refine ⟨s2 ++ t, ?_⟩
        simp only [analyzeLoop, hc, hm, if_true]
        rw [ht, hs2, List.append_assoc]
      · rw [Bool.not_eq_true] at hm
        simp only [analyzeLoop, hc, hm, Bool.false_eq_true, if_false]
        exact ⟨s2, hs2⟩

lemma analyzeLoop_terminal_zero (calls : Nat → CallResult) :
    ∀ k fuel idx delay sleeps numCalls, 0 ≤ delay → k < fuel →
      (∀ i, i < k → isThrottled (calls (idx + i)) = true) →
      isThrottled (calls (idx + k)) = false →
      (analyzeLoop calls fuel idx delay sleeps numCalls).finalDelay = 0 := by
  intro k
  induction k with
  | zero =>
    intro fuel idx delay sleeps n hd hk hpre hterm
    obtain ⟨f, rfl⟩ : ∃ f, fuel = f + 1 := ⟨fuel - 1, by omega⟩
    rw [Nat.add_zero] at hterm
    have hz : (if (0 : ℚ) < delay then (0 : ℚ) else delay) = 0 := by
      by_cases hd2 : (0 : ℚ) < delay
      · simp [hd2]
      · simp [hd2, le_antisymm (not_lt.mp hd2) hd]
    rcases hc : calls idx with ⟨a, v⟩ | m
    · cases v
      · have hiv : strContains invalidJsonMsg rateLimitMarker = false := by decide
        simp [analyzeLoop, hc, hiv, hz]
      · simp [analyzeLoop, hc, hz]
    · have hm : strContains m rateLimitMarker = false := by
        rw [hc] at hterm
        simpa [isThrottled] using hterm
      simp [analyzeLoop, hc, hm, hz]
  | succ k ih =>
    intro fuel idx delay sleeps n hd hk hpre hterm
    obtain ⟨f, rfl⟩ : ∃ f, fuel = f + 1 := ⟨fuel - 1, by omega⟩
    have h0 : isThrottled (calls idx) = true := by
      have := hpre 0 (by omega)
      simpa using this
    rcases hc : calls idx with ⟨a, v⟩ | m
    · rw [hc] at h0
      cases v <;> simp [isThrottled] at h0
    · have hm : strContains m rateLimitMarker = true := by
        rw [hc] at h0
        simpa [isThrottled] using h0
      simp only [analyzeLoop, hc, hm, if_true]
      apply ih
      · exact le_of_lt (handleRateLimit_pos m)
      · omega
      · intro i hi
        have heq : idx + 1 + i = idx + (i + 1) := by omega
        rw [heq]
        exact hpre (i + 1) (by omega)
      · have heq : idx + 1 + k = idx + (k + 1) := by omega
        rw [heq]
        exact hterm

lemma analyzeEntry_first_sleep (calls : Nat → CallResult) (d0 : ℚ) (h : 0 < d0) :
    (analyzeEntry calls d0).sleeps.head? = some d0 := by
  have hiv : strContains invalidJsonMsg rateLimitMarker = false := by decide
  simp only [analyzeEntry, maxRetries]
  rcases hc0 : calls 0 with ⟨a0, v0⟩ | m0
  · cases v0
    · simp [analyzeLoop, hc0, hiv, h]
    · simp [analyzeLoop, hc0, h]
  · by_cases hm0 : strContains m0 rateLimitMarker = true
    · have hp0 := handleRateLimit_pos m0
      rcases hc1 : calls 1 with ⟨a1, v1⟩ | m1
      · cases v1
        · simp [analyzeLoop, hc0, hm0, hc1, hiv, h, hp0]
        · simp [analyzeLoop, hc0, hm0, hc1, h, hp0]
      · by_cases hm1 : strContains m1 rateLimitMarker = true
        · have hp1 := handleRateLimit_pos m1
          rcases hc2 : calls 2 with ⟨a2, v2⟩ | m2
          · cases v2
            · simp [analyzeLoop, hc0, hm0, hc1, hm1, hc2, hiv, h, hp0, hp1]
            · simp [analyzeLoop, hc0, hm0, hc1, hm1, hc2, h, hp0, hp1]
          · by_cases hm2 : strContains m2 rateLimitMarker = true
            · simp [analyzeLoop, hc0, hm0, hc1, hm1, hc2, hm2, h, hp0, hp1]
            · rw [Bool.not_eq_true] at hm2
              simp [analyzeLoop, hc0, hm0, hc1, hm1, hc2, hm2, h, hp0, hp1]
        · rw [Bool.not_eq_true] at hm1
          simp [analyzeLoop, hc0, hm0, hc1, hm1, h, hp0]
    · rw [Bool.not_eq_true] at hm0
      simp [analyzeLoop, hc0, hm0, h]

/-! ## Claim C1 -/

/-- Claim C1: if the external analysis call fails with a throttling signal
(an error whose text contains the rate-limit marker) on every attempt,
`analyze_entry` issues exactly `max_retries = 3` analysis calls in total and
returns the degraded rate-limit result, whose summary is "Failed to analyze
entry due to rate limit" and whose actions contain the manual-review
instruction; the model is a total function, so no exception reaches the
caller. -/
theorem analyze_entry_throttled_exhaustion (calls : Nat → CallResult)
    (h : ∀ i, ∃ m, calls i = .raised m ∧ strContains m rateLimitMarker = true) :
    (analyzeEntry calls 0).numCalls = maxRetries ∧
    (analyzeEntry calls 0).retval = degradedRateLimitJson ∧
    strContains degradedRateLimitJson "Failed to analyze entry due to rate limit" = true ∧
    strContains degradedRateLimitJson "Please review this entry manually" = true := by
  have h3 := analyzeLoop_all_throttled calls h maxRetries 0 0 [] 0
  refine ⟨?_, h3.1, by decide, by decide⟩
  rw [analyzeEntry] at *
  omega

/-- Witness for C1 at a concrete all-throttled oracle. -/
theorem analyze_entry_throttled_exhaustion_witness :
    (analyzeEntry throttledCalls 0).numCalls = maxRetries ∧
    (analyzeEntry throttledCalls 0).retval = degradedRateLimitJson ∧
    strContains degradedRateLimitJson "Failed to analyze entry due to rate limit" = true ∧
    strContains degradedRateLimitJson "Please review this entry manually" = true :=
  analyze_entry_throttled_exhaustion throttledCalls
    (fun _ => ⟨throttleMsg, rfl, by decide⟩)

/-! ## Claim C7 -/

/-- Claim C7 counterexample: for the throttling error text
"Please try again in 5s." the parsed number of seconds is 5, but the wait
duration computed by `_handle_rate_limit` is 6, not 5 — the code adds a
one-second buffer (`return wait_time + 1`), so the claim "the wait duration
equals the number of seconds parsed from the error text" fails. -/
theorem handle_rate_limit_plus_one_cex :
    parseWaitTime "Please try again in 5s." = some 5 ∧
    handleRateLimit "Please try again in 5s." = 6 ∧ (6 : ℚ) ≠ 5 := by
  have hp : parseWaitTime "Please try again in 5s." = some 5 := by decide
  refine ⟨hp, ?_, by norm_num⟩
  rw [handleRateLimit, hp]
  norm_num

/-- Claim C7 (amended): when the error text matches the pattern
"try again in [seconds]s" the computed wait is the parsed number of seconds
plus a one-second buffer, and it is the fixed default of 30 seconds
otherwise; the client then sleeps exactly that stored duration before
issuing the retry. -/
theorem rate_limit_wait_spec :
    (∀ msg q, parseWaitTime msg = some q → handleRateLimit msg = q + 1) ∧
    (∀ msg, parseWaitTime msg = none → handleRateLimit msg = 30) ∧
    (∀ calls m, calls 0 = CallResult.raised m → strContains m rateLimitMarker = true →
      (analyzeEntry calls 0).sleeps.head? = some (handleRateLimit m)) := by
  refine ⟨fun msg q hq => by simp [handleRateLimit, hq],
    fun msg hq => by simp [handleRateLimit, hq], ?_⟩
  intro calls m e0 c0
  have hp := handleRateLimit_pos m
  simp only [analyzeEntry, maxRetries]
  simp only [analyzeLoop, e0, c0, if_true, lt_irrefl, if_false]
  rcases hc1 : calls 1 with ⟨a, v⟩ | m1
  · cases v
    · have hiv : strContains invalidJsonMsg rateLimitMarker = false := by decide
      simp [analyzeLoop, hc1, hiv, hp]
    · simp [analyzeLoop, hc1, hp]
  · by_cases hm1 : strContains m1 rateLimitMarker = true
    · have hp1 := handleRateLimit_pos m1
      rcases hc2 : calls 2 with ⟨a2, v2⟩ | m2
      · cases v2
        · have hiv : strContains invalidJsonMsg rateLimitMarker = false := by decide
          simp [analyzeLoop, hc1, hm1, hc2, hiv, hp, hp1]
        · simp [analyzeLoop, hc1, hm1, hc2, hp, hp1]
      · by_cases hm2 : strContains m2 rateLimitMarker = true
        · simp [analyzeLoop, hc1, hm1, hc2, hm2, hp, hp1]
        · rw [Bool.not_eq_true] at hm2
          simp [analyzeLoop, hc1, hm1, hc2, hm2, hp, hp1]
    · rw [Bool.not_eq_true] at hm1
      simp [analyzeLoop, hc1, hm1, hp]

/-- Witness for C7 at concrete error texts and a concrete throttled oracle. -/
theorem rate_limit_wait_spec_witness :
    handleRateLimit "Please try again in 5s." = 5 + 1 ∧
    handleRateLimit "no wait hint here" = 30 ∧
    (analyzeEntry throttledCalls 0).sleeps.head? = some (handleRateLimit throttleMsg) :=
  ⟨rate_limit_wait_spec.1 _ 5 (by decide),
   rate_limit_wait_spec.2.1 _ (by decide),
   rate_limit_wait_spec.2.2 throttledCalls throttleMsg rfl (by decide)⟩

/-! ## Claim C10 -/

/-- Claim C10 counterexample: with every attempt throttled by a message
suggesting a 20 second wait, `analyze_entry` returns after exhausting its
retries with `rate_limit_delay = 21`, not zero — the delay set by the last
throttled attempt is never slept nor reset within this call. -/
theorem analyze_entry_final_delay_cex :
    (analyzeEntry throttledCalls 0).finalDelay = 21 ∧ (21 : ℚ) ≠ 0 := by
  have h20 : parseWaitTime throttleMsg = some 20 := by decide
  have h21 : handleRateLimit throttleMsg = 21 := by rw [handleRateLimit, h20]; norm_num
  have hm : strContains throttleMsg rateLimitMarker = true := by decide
  refine ⟨?_, by norm_num⟩
  simp [analyzeEntry, maxRetries, analyzeLoop, throttledCalls, hm, h21]

/-- Claim C10 (amended): on every return with a successful analysis and on
every return with the degraded result after a non-retryable failure — at
whichever attempt the first non-throttled outcome occurs — the backoff-delay
counter `rate_limit_delay` is zero (and the loop mutates no client-local
state other than this counter, which the model's state reflects); but on a
return after retry exhaustion the counter retains the backoff computed from
the last throttling error, which is strictly positive, and any subsequent
`analyze_entry` invocation begins by sleeping exactly that retained value. -/
theorem analyze_entry_delay_state (calls : Nat → CallResult) (d0 : ℚ) (hd0 : 0 ≤ d0) :
    (∀ k, k < maxRetries →
      (∀ i, i < k → isThrottled (calls i) = true) →
      isThrottled (calls k) = false →
      (analyzeEntry calls d0).finalDelay = 0) ∧
    (∀ m0 m1 m2, calls 0 = CallResult.raised m0 → strContains m0 rateLimitMarker = true →
      calls 1 = CallResult.raised m1 → strContains m1 rateLimitMarker = true →
      calls 2 = CallResult.raised m2 → strContains m2 rateLimitMarker = true →
      (analyzeEntry calls d0).finalDelay = handleRateLimit m2 ∧
      (analyzeEntry calls d0).finalDelay ≠ 0 ∧
      ∀ calls2, (analyzeEntry calls2 ((analyzeEntry calls d0).finalDelay)).sleeps.head? =
        some ((analyzeEntry calls d0).finalDelay)) := by
  constructor
  · intro k hk hpre hterm
    simp only [analyzeEntry]
    apply analyzeLoop_terminal_zero calls k maxRetries 0 d0 [] 0 hd0 hk
    · intro i hi
      rw [Nat.zero_add]
      exact hpre i hi
    · rw [Nat.zero_add]
      exact hterm
  · intro m0 m1 m2 e0 c0 e1 c1 e2 c2
    have he : (analyzeEntry calls d0).finalDelay = handleRateLimit m2 := by
      simp [analyzeEntry, maxRetries, analyzeLoop, e0, c0, e1, c1, e2, c2]
    have hpos : 0 < (analyzeEntry calls d0).finalDelay := he ▸ handleRateLimit_pos m2
    exact ⟨he, hpos.ne', fun calls2 => analyzeEntry_first_sleep calls2 _ hpos⟩

/-- Witness for C10 at concrete oracles: a first-call success and a success
on the third attempt after two throttled attempts both return with a zero
delay, while an all-throttled run returns with the last computed delay,
which is nonzero and is slept first by a subsequent invocation. -/
theorem analyze_entry_delay_state_witness :
    (analyzeEntry successCalls 0).finalDelay = 0 ∧
    (analyzeEntry mixedCalls 0).finalDelay = 0 ∧
    ((analyzeEntry throttledCalls 0).finalDelay = handleRateLimit throttleMsg ∧
      (analyzeEntry throttledCalls 0).finalDelay ≠ 0 ∧
      (analyzeEntry successCalls ((analyzeEntry throttledCalls 0).finalDelay)).sleeps.head? =
        some ((analyzeEntry throttledCalls 0).finalDelay)) :=
  ⟨(analyze_entry_delay_state successCalls 0 le_rfl).1 0 (by norm_num [maxRetries])
      (fun i hi => absurd hi (Nat.not_lt_zero i)) (by decide),
   (analyze_entry_delay_state mixedCalls 0 le_rfl).1 2 (by norm_num [maxRetries])
      (fun i hi => by
        have h2 : i = 0 ∨ i = 1 := by omega
        rcases h2 with rfl | rfl <;> decide)
      (by decide),
   (fun hx => ⟨hx.1, hx.2.1, hx.2.2 successCalls⟩)
     ((analyze_entry_delay_state throttledCalls 0 le_rfl).2 throttleMsg throttleMsg
       throttleMsg rfl (by decide) rfl (by decide) rfl (by decide))⟩

/-! ## Claim C2 -/

/-- Claim C2: when the membership query to the store raises,
`is_entry_processed` returns `false` (the model is a total function, so the
store error never propagates), and `process_entry` then treats the entry as
unseen: with a matching keyword filter it still issues the analysis call and
persists the result — the entry is not dropped. -/
theorem is_entry_processed_fails_open :
    ∀ (err : String) (analysisData : PyDict),
      isEntryProcessed (.error err) = false ∧
      (processEntry (.error err) true analysisData).analyzed = true ∧
      (processEntry (.error err) true analysisData).saved = true := by
  intro err d
  refine ⟨rfl, ?_, ?_⟩ <;> simp [processEntry, isEntryProcessed]

/-! ## Claim C4 -/

/-- Claim C4: whenever `save_entry` leaves the identity in the processed
set, the record body was written, the record write (`hset`) succeeded, and
the membership add (`sadd`) was issued only then — so the stable state
"marked processed but record body missing" is unreachable from one
invocation. -/
theorem save_entry_no_orphan_membership (hsetRes saddRes : Except String Unit)
    (h : (saveEntry hsetRes saddRes).memberAdded = true) :
    (saveEntry hsetRes saddRes).recordWritten = true ∧
    hsetRes = .ok () ∧
    (saveEntry hsetRes saddRes).saddIssued = true := by
  cases hsetRes with
  | error e => simp [saveEntry] at h
  | ok u =>
    cases u
    cases saddRes with
    | error e => simp [saveEntry] at h
    | ok u2 => cases u2; exact ⟨rfl, rfl, rfl⟩

/-- Witness for C4 at a pair of successful store round-trips. -/
theorem save_entry_no_orphan_membership_witness :
    (saveEntry (.ok ()) (.ok ())).memberAdded = true ∧
    ((saveEntry (.ok ()) (.ok ())).recordWritten = true ∧
      (Except.ok () : Except String Unit) = .ok () ∧
      (saveEntry (.ok ()) (.ok ())).saddIssued = true) :=
  ⟨rfl, save_entry_no_orphan_membership (.ok ()) (.ok ()) rfl⟩

/-! ## Claim C6 -/

/-- Claim C6 (code-bug evidence): for a novel entry passing the keyword
filter, both the empty-object analysis (the "not relevant" signal) and an
analysis explicitly carrying `is_important: False` are appended to the
accumulation buffer, contradicting the claim that only important results
are appended: line 182 of feed_processor.py tests the substring
`"not_important"`, which never occurs in `str(analysis_data).lower()` for
dicts keyed `is_important`. -/
theorem process_entry_appends_nonimportant :
    (processEntry (.ok false) true []).appended = true ∧
    (processEntry (.ok false) true [("is_important", .bool false)]).appended = true ∧
    (processEntry (.ok false) true [("is_important", .bool false)]).saved = true := by
  refine ⟨by decide, by decide, by decide⟩

/-! ## Claim C3 -/

/-- Claim C3 counterexample: the triples ("ab", "c", "") and ("a", "bc", "")
differ in all of title and link, yet `get_entry_hash` assigns them the same
identity, because the three fields are concatenated with no separator before
hashing — the identity equality is exact, not a digest collision. -/
theorem get_entry_hash_collision_cex :
    getEntryHash "ab" "c" "" = getEntryHash "a" "bc" "" ∧
    (("ab", "c", "") : String × String × String) ≠ ("a", "bc", "") := by
  constructor
  · show sha256Hex (encodeUtf8 ("ab" ++ "c" ++ "")) =
      sha256Hex (encodeUtf8 ("a" ++ "bc" ++ ""))
    exact congrArg (fun s => sha256Hex (encodeUtf8 s)) (by decide)
  · decide

/-- Claim C3 (amended): the identity is a deterministic function of the
separator-free concatenation `title ++ link ++ published`: any two entries
whose concatenations coincide — in particular any two with componentwise
equal triples — receive the same identity; distinctness of identities is
only guaranteed (up to digest collision) for distinct concatenations, not
for distinct triples. -/
theorem get_entry_hash_concat_determinism (t1 l1 p1 t2 l2 p2 : String)
    (h : t1 ++ l1 ++ p1 = t2 ++ l2 ++ p2) :
    getEntryHash t1 l1 p1 = getEntryHash t2 l2 p2 := by
  simp only [getEntryHash, h]

/-- Witness for C3 at the concrete colliding concatenations. -/
theorem get_entry_hash_concat_determinism_witness :
    ("ab" ++ "c" ++ "" : String) = "a" ++ "bc" ++ "" ∧
    getEntryHash "ab" "c" "" = getEntryHash "a" "bc" "" :=
  ⟨by decide, get_entry_hash_concat_determinism "ab" "c" "" "a" "bc" "" (by decide)⟩

/-! ## Supporting lemmas about `rfind` -/

lemma rfind_cons (x : Char) (xs : List Char) (c : Char) :
    rfind (x :: xs) c =
      match rfind xs c with
      | some i => some (i + 1)
      | none => if x = c then some 0 else none := rfl

lemma rfind_eq_none_iff (l : List Char) (c : Char) : rfind l c = none ↔ c ∉ l := by
  induction l with
  | nil => simp [rfind]
  | cons x xs ih =>
    simp only [rfind]
    cases h : rfind xs c with
    | some i =>
      have hx : c ∈ xs := by
        by_contra hc
        rw [← ih] at hc
        rw [h] at hc
        exact Option.noConfusion hc
      simp [hx]
    | none =>
      have hx : c ∉ xs := ih.mp h
      by_cases he : x = c
      · simp [he]
      · simp [he, hx, List.mem_cons]
        exact fun hcx => he hcx.symm

lemma rfind_lt_length (l : List Char) (c : Char) (i : Nat) (h : rfind l c = some i) :
    i < l.length := by
  induction l generalizing i with
  | nil => simp [rfind] at h
  | cons x xs ih =>
    simp only [rfind] at h
    cases h2 : rfind xs c with
    | some j =>
      rw [h2] at h
      simp only [Option.some.injEq] at h
      subst h
      have := ih j h2
      simp
      omega
    | none =>
      rw [h2] at h
      by_cases he : x = c
      · simp [he] at h
        subst h
        simp
      · simp [he] at h

lemma rfind_get (l : List Char) (c : Char) (i : Nat) (h : rfind l c = some i) :
    l.get? i = some c := by
  induction l generalizing i with
  | nil => simp [rfind] at h
  | cons x xs ih =>
    simp only [rfind] at h
    cases h2 : rfind xs c with
    | some j =>
      rw [h2] at h
      simp only [Option.some.injEq] at h
      subst h
      simpa using ih j h2
    | none =>
      rw [h2] at h
      by_cases he : x = c
      · simp [he] at h
        subst h
        simp [he]
      · simp [he] at h

lemma rfind_last (l : List Char) (c : Char) (i : Nat) (h : rfind l c = some i) :
    ∀ j, i < j → l.get? j ≠ some c := by
  induction l generalizing i with
  | nil => simp [rfind] at h
  | cons x xs ih =>
    simp only [rfind] at h
    cases h2 : rfind xs c with
    | some k =>
      rw [h2] at h
      simp only [Option.some.injEq] at h
      subst h
      intro j hj
      cases j with
      | zero => omega
      | succ j2 =>
        simp only [List.get?_cons_succ]
        exact ih k h2 j2 (by omega)
    | none =>
      rw [h2] at h
      by_cases he : x = c
      · simp [he] at h
        subst h
        intro j hj
        cases j with
        | zero => omega
        | succ j2 =>
          simp only [List.get?_cons_succ]
          intro hc
          have hmem : c ∈ xs := List.get?_mem hc
          exact (rfind_eq_none_iff xs c |>.mp h2) hmem
      · simp [he] at h

lemma rfind_replicate_self (c : Char) :
    ∀ n, rfind (List.replicate (n + 1) c) c = some n := by
  intro n
  induction n with
  | zero => simp [rfind, List.replicate]
  | succ n ih =>
    rw [List.replicate_succ, rfind_cons, ih]

/-! ## Claim C8 -/

/-- Claim C8 counterexample: for content of length 4001 whose only sentence
terminator within the first 4000 characters sits at index 0, the claim says
truncation ends exactly at that (last) terminator, i.e. the output would be
the one-character prefix plus the marker — but the code's `last_period > 0`
guard skips terminators at index 0, so the output keeps the full 4000-char
prefix. -/
theorem truncate_dot_at_zero_cex :
    longDotContent.length > maxContentLength ∧
    rfind (longDotContent.take maxContentLength) '.' = some 0 ∧
    truncateContent longDotContent ≠ longDotContent.take (0 + 1) ++ truncationMarker := by
  have hlen : longDotContent.length = 4001 := by
    simp only [longDotContent, List.length_cons, List.length_replicate]
  have hgt : longDotContent.length > maxContentLength := by
    rw [hlen]
    norm_num [maxContentLength]
  have htake : longDotContent.take maxContentLength = '.' :: List.replicate 3999 'a' := by
    show ('.' :: List.replicate 4000 'a').take 4000 = '.' :: List.replicate 3999 'a'
    rw [show (4000 : ℕ) = 3999 + 1 from rfl, List.take_succ_cons, List.take_replicate,
      Nat.min_eq_left (by norm_num)]
  have hnone : rfind (List.replicate 3999 'a') '.' = none := by
    rw [rfind_eq_none_iff, List.mem_replicate]
    intro hc
    exact absurd hc.2 (by decide)
  have hrf : rfind (longDotContent.take maxContentLength) '.' = some 0 := by
    rw [htake, rfind_cons, hnone]
    simp
  have htake1 : longDotContent.take (0 + 1) = ['.'] := by
    rw [longDotContent]
    rfl
  refine ⟨hgt, hrf, ?_⟩
  have hres : truncateContent longDotContent =
      longDotContent.take maxContentLength ++ truncationMarker := by
    simp [truncateContent, hgt, hrf]
  rw [hres, htake1]
  intro hcontra
  have hL := congrArg List.length hcontra
  rw [htake] at hL
  simp only [List.length_append, List.length_cons, List.length_replicate,
    List.length_singleton, List.length_nil] at hL
  omega

/-- Claim C8 (amended): content within the 4000-character limit is returned
unchanged; content over the limit with no terminator in the first 4000
characters is cut to at most the limit plus the marker; content over the
limit whose last terminator in the first 4000 characters sits at a
*positive* index is cut exactly after that terminator and the marker is
appended; when the only terminator sits at index 0 the cut keeps the full
4000-character prefix (the `last_period > 0` guard).  `rfind` returns the
last terminator position: its index holds a terminator and no later index
does. -/
theorem truncate_content_spec (content : List Char) :
    (content.length ≤ maxContentLength → truncateContent content = content) ∧
    (content.length > maxContentLength → '.' ∉ content.take maxContentLength →
      (truncateContent content).length ≤ maxContentLength + truncationMarker.length) ∧
    (∀ i, content.length > maxContentLength →
      rfind (content.take maxContentLength) '.' = some i → 0 < i →
      truncateContent content = content.take (i + 1) ++ truncationMarker) ∧
    (content.length > maxContentLength →
      rfind (content.take maxContentLength) '.' = some 0 →
      truncateContent content = content.take maxContentLength ++ truncationMarker) ∧
    (∀ i, rfind (content.take maxContentLength) '.' = some i →
      (content.take maxContentLength).get? i = some '.' ∧
      ∀ j, i < j → (content.take maxContentLength).get? j ≠ some '.') := by
  refine ⟨?_, ?_, ?_, ?_, ?_⟩
  · intro h
    simp [truncateContent, Nat.not_lt.mpr h]
  · intro h1 h2
    have hrf : rfind (content.take maxContentLength) '.' = none :=
      (rfind_eq_none_iff _ _).mpr h2
    simp only [truncateContent, h1, if_true, hrf]
    simp only [List.length_append, List.length_take]
    omega
  · intro i h1 hrf hi
    have hlt : i < (content.take maxContentLength).length := rfind_lt_length _ _ _ hrf
    rw [List.length_take] at hlt
    simp only [truncateContent, h1, if_true, hrf, hi, List.take_take]
    have : min (i + 1) maxContentLength = i + 1 := by omega
    rw [this]
  · intro h1 hrf
    simp [truncateContent, h1, hrf]
  · intro i hrf
    exact ⟨rfind_get _ _ _ hrf, rfind_last _ _ _ hrf⟩

/-- Witness for C8: a short content is returned unchanged, and content of
4001 terminators is cut exactly after the last terminator of the first
4000 characters (index 3999). -/
theorem truncate_content_spec_witness :
    ("short entry.".toList.length ≤ maxContentLength ∧
      truncateContent "short entry.".toList = "short entry.".toList) ∧
    ((List.replicate 4001 '.').length > maxContentLength ∧
      rfind ((List.replicate 4001 '.').take maxContentLength) '.' = some 3999 ∧
      0 < 3999 ∧
      truncateContent (List.replicate 4001 '.') =
        (List.replicate 4001 '.').take (3999 + 1) ++ truncationMarker) := by
  have h1a : "short entry.".toList.length ≤ maxContentLength := by decide
  have h3a : (List.replicate 4001 '.').length > maxContentLength := by
    rw [List.length_replicate]
    norm_num [maxContentLength]
  have h3b : rfind ((List.replicate 4001 '.').take maxContentLength) '.' = some 3999 := by
    rw [show maxContentLength = 4000 from rfl, List.take_replicate,
      Nat.min_eq_left (by norm_num), show (4000 : ℕ) = 3999 + 1 from rfl,
      rfind_replicate_self]
  exact ⟨⟨h1a, (truncate_content_spec _).1 h1a⟩,
    ⟨h3a, h3b, by norm_num,
      (truncate_content_spec _).2.2.1 3999 h3a h3b (by norm_num)⟩⟩

/-! ## Claim C5 -/

/-- Claim C5: an accumulated item passes the report filter of
`send_summary_notification` exactly when its analysis is non-empty, its
deadline field (defaulting to the sentinel when absent) is a string other
than "No deadline", that string parses under the `%Y-%m-%d` format, and the
parsed midnight instant is not strictly before the generation instant; any
parse failure excludes the item.  The hypothesis records that every
buffered deadline field is string-typed, which is what the Python code
presupposes (a non-string would raise `TypeError` out of the filter). -/
theorem report_filter_admits_iff (now : PyDateTime) (buf : List BufEntry)
    (hstr : ∀ x ∈ buf, (deadlineStr x.analysis).isSome = true) (e : BufEntry) :
    e ∈ filterValidEntries now buf ↔
      e ∈ buf ∧ e.analysis ≠ [] ∧
      ∃ dl, deadlineStr e.analysis = some dl ∧ dl ≠ "No deadline" ∧
        ∃ y m d, strptimeYmd dl = some (y, m, d) ∧ dtLt ⟨y, m, d, 0⟩ now = false := by
  rw [filterValidEntries, List.mem_filter]
  refine and_congr_right fun _ => ?_
  unfold entryValid
  by_cases hA : e.analysis = []
  · simp [hA, deadlineStr, dictGet]
  · have hA2 : e.analysis.isEmpty = false := by
      simpa [List.isEmpty_iff] using hA
    simp only [hA2, Bool.false_eq_true, if_false]
    cases hdl : deadlineStr e.analysis with
    | none => simp [hdl]
    | some dl =>
      by_cases hnd : dl = "No deadline"
      · simp [hdl, hnd]
      · have hbeq : (dl == "No deadline") = false := by
          simpa using hnd
        simp only [hbeq, Bool.false_eq_true, if_false]
        cases hp : strptimeYmd dl with
        | none => simp [hp, hA, hnd]
        | some ymd =>
          obtain ⟨y, m, d⟩ := ymd
          simp [hp, hA, hnd]
          constructor
          · intro hlt
            exact ⟨y, m, d, ⟨rfl, rfl, rfl⟩, hlt⟩
          · rintro ⟨y2, m2, d2, ⟨rfl, rfl, rfl⟩, hlt⟩
            exact hlt

/-- Witness for C5 at a singleton buffer holding an entry with a valid
future deadline. -/
theorem report_filter_admits_iff_witness :
    (∀ x ∈ [futureEntry], (deadlineStr x.analysis).isSome = true) ∧
    (futureEntry ∈ filterValidEntries reportNow [futureEntry] ↔
      futureEntry ∈ [futureEntry] ∧ futureEntry.analysis ≠ [] ∧
      ∃ dl, deadlineStr futureEntry.analysis = some dl ∧ dl ≠ "No deadline" ∧
        ∃ y m d, strptimeYmd dl = some (y, m, d) ∧ dtLt ⟨y, m, d, 0⟩ reportNow = false) :=
  ⟨fun x hx => by rw [List.mem_singleton] at hx; subst hx; rfl,
   report_filter_admits_iff reportNow [futureEntry]
     (fun x hx => by rw [List.mem_singleton] at hx; subst hx; rfl) futureEntry⟩

/-! ## Claim C9 -/

end Hermes
